import Mathlib

/-!
A shallow embedding, in Lean 4, of the protocol / federation layer of the
kos-kit/server repository (src/main.rs, src/sparql.rs, src/search.rs,
src/init.rs, src/cors.rs, src/index.rs), together with theorems about the
behaviour of that layer.

Conventions used throughout:
* HTTP statuses are natural numbers (200, 201, 204, 400, ...), mirroring
  `oxhttp::model::Status`.
* Byte strings are `List Nat`.
* `q`-scores of Accept entries are modelled as exact rationals (`ℚ`); the
  source parses them with `f32::from_str`, and on the short decimal literals
  the server compares, the ordering of the parsed `f32` values agrees with
  the ordering of the rationals.
* The string primitives of Rust's `str` (`split`, `split_once`, `trim`,
  `starts_with`, integer parsing, ASCII lowercasing) are re-implemented
  structurally over `List Char` so that every definition evaluates inside
  the kernel.
* Calls into the external collaborators (the oxigraph store, the tantivy
  index, `url::form_urlencoded`, UTF-8 decoding) are modelled by explicit
  parameters or by interface-level state, as the spec treats them as
  external contracts.
-/

namespace KosKitServer

/-- An HTTP-level failure, mirroring `type HttpError = (Status, String)`. -/
structure HttpError where
  status : Nat
  message : String
deriving DecidableEq

/-- `bad_request` in src/main.rs / src/sparql.rs. -/
def mkBadRequest (message : String) : HttpError := ⟨400, message⟩

/-- `unsupported_media_type` in src/main.rs / src/sparql.rs. -/
def mkUnsupportedMediaType (contentType : String) : HttpError :=
  ⟨415, "No supported content Content-Type given: " ++ contentType⟩

/-- `internal_server_error` in src/main.rs / src/sparql.rs. -/
def mkInternalServerError (message : String) : HttpError := ⟨500, message⟩

/-! ## String primitives (models of Rust `str` methods) -/

/-- Rust's `str::split` on a one-character separator, over the character
list: `"".split(c)` is `[""]`, separators at the ends produce empty pieces. -/
def splitOnChar (sep : Char) : List Char → List (List Char)
  | [] => [[]]
  | c :: rest =>
    if c = sep then [] :: splitOnChar sep rest
    else
      match splitOnChar sep rest with
      | [] => [[c]]
      | h :: t => (c :: h) :: t

/-- `str::split` on a one-character separator, at the `String` level. -/
def strSplit (sep : Char) (s : String) : List String :=
  (splitOnChar sep s.data).map String.mk

/-- Rust's `str::split_once` on a one-character separator. -/
def splitOnceChar (sep : Char) : List Char → Option (List Char × List Char)
  | [] => none
  | c :: rest =>
    if c = sep then some ([], rest)
    else (splitOnceChar sep rest).map (fun p => (c :: p.1, p.2))

/-- `str::split_once`, at the `String` level. -/
def strSplitOnce (sep : Char) (s : String) : Option (String × String) :=
  (splitOnceChar sep s.data).map (fun p => (String.mk p.1, String.mk p.2))

/-- Rust's `str::trim` (whitespace on both ends). -/
def trimChars (s : List Char) : List Char :=
  ((s.dropWhile Char.isWhitespace).reverse.dropWhile Char.isWhitespace).reverse

/-- `str::trim`, at the `String` level. -/
def strTrim (s : String) : String := String.mk (trimChars s.data)

/-- Rust's `str::starts_with` for a string pattern. -/
def strStarts (pat s : String) : Bool := pat.data.isPrefixOf s.data

/-- Drop the first `n` characters of a string (`&s[n..]` on ASCII data). -/
def strDrop (n : Nat) (s : String) : String := String.mk (s.data.drop n)

/-- Rust's `str::is_empty`. -/
def strIsEmpty (s : String) : Bool := s.data.isEmpty

/-- Digit-string to number, the essence of `usize::from_str` /
`u64::from_str`: all characters must be digits and there must be at least
one. -/
def digitsToNat : List Char → Option Nat
  | [] => none
  | l =>
    if l.all Char.isDigit then
      some (l.foldl (fun n c => n * 10 + (c.toNat - 48)) 0)
    else none

/-- `usize::from_str`, at the `String` level. -/
def strToNat (s : String) : Option Nat := digitsToNat s.data

/-- Rust's `char::to_ascii_lowercase`. -/
def asciiLower (c : Char) : Char :=
  if 'A' ≤ c && c ≤ 'Z' then Char.ofNat (c.toNat + 32) else c

/-- Rust's `str::to_ascii_lowercase`. -/
def strLower (s : String) : String := String.mk (s.data.map asciiLower)

/-- `Vec::join` / `[&str]::join`. -/
def joinWith (sep : String) : List String → String
  | [] => ""
  | [x] => x
  | x :: y :: rest => x ++ sep ++ joinWith sep (y :: rest)

/-- Model of `f32::from_str` restricted to the decimal literals the server
compares: optional sign, integer digits and/or a fractional part.  The
value is kept as an exact rational. -/
def parseFloatQ (s : String) : Option ℚ :=
  let neg := strStarts "-" s
  let t := if strStarts "-" s || strStarts "+" s then strDrop 1 s else s
  let signed : Int → Int := fun n => if neg then -n else n
  match (splitOnChar '.' t.data).map digitsToNat with
  | [some n] => some (mkRat (signed n) 1)
  | [none] => none
  | [iPart, fPart] =>
    let fLen := ((splitOnChar '.' t.data).getD 1 []).length
    match iPart, fPart with
    | some n, some fn => some (mkRat (signed (n * 10 ^ fLen + fn)) (10 ^ fLen))
    | some n, none =>
      -- "1." : an empty fractional part is accepted by Rust
      if ((splitOnChar '.' t.data).getD 1 []).isEmpty then some (mkRat (signed n) 1) else none
    | none, some fn =>
      -- ".5" : an empty integer part is accepted by Rust
      if ((splitOnChar '.' t.data).getD 0 []).isEmpty then
        some (mkRat (signed fn) (10 ^ fLen))
      else none
    | none, none => none
  | _ => none

/-! ## Content negotiation (src/sparql.rs lines 230-294, same code in
src/main.rs lines 780-844) -/

/-- The scan of the `;`-separated parameters of one Accept entry for
`q=<float>`; the score defaults to `1.0` and every `q=` occurrence
overwrites it; an unparseable score is an error carrying the offending
text (the Rust loop returns `BadRequest` there). -/
def scanScore : List String → ℚ → Except String ℚ
  | [], score => .ok score
  | p :: rest, score =>
    let p := strTrim p
    if strStarts "q=" p then
      match parseFloatQ (strTrim (strDrop 2 p)) with
      | some s => scanScore rest s
      | none => .error (strDrop 2 p)
    else scanScore rest score

/-- The match test of `content_negotiation`:
`(possible_base == candidate_base || possible_base == "*") &&
 (possible_sub == candidate_sub || possible_sub == "*")`. -/
def entryMatches (possBase possSub candBase candSub : String) : Bool :=
  (possBase == candBase || possBase == "*") && (possSub == candSub || possSub == "*")

/-- `candidate.split_once(';').map_or(candidate, |(p, _)| p).split_once('/')`:
the `type`/`subtype` parts of one supported candidate string. -/
def candidateParts (candidate : String) : Option (String × String) :=
  strSplitOnce '/' ((strSplitOnce ';' candidate).elim candidate Prod.fst)

/-- The inner candidate scan of `content_negotiation`: the first supported
candidate matching the Accept entry wins (`break`); a malformed candidate is
an internal server error naming the raw Accept media range. -/
def findCandidate (possBase possSub raw : String) :
    List String → Except HttpError (Option String)
  | [] => .ok none
  | c :: rest =>
    match candidateParts c with
    | none => .error (mkInternalServerError ("Invalid media type: \x27" ++ raw ++ "\x27"))
    | some (cb, cs) =>
      if entryMatches possBase possSub cb cs then .ok (some c)
      else findCandidate possBase possSub raw rest

/-- The main loop of `content_negotiation` over the `,`-separated Accept
entries, carrying `(result, result_score)` (initially `(None, 0.0)`). -/
def negotiateLoop (supported : List String) :
    List String → Option String × ℚ → Except HttpError (Option String × ℚ)
  | [], acc => .ok acc
  | possible :: rest, acc =>
    let (range, parameters) := (strSplitOnce ';' possible).getD (possible, "")
    match strSplitOnce '/' range with
    | none => .error (mkBadRequest ("Invalid media type: \x27" ++ range ++ "\x27"))
    | some (pb, ps) =>
      let pb := strTrim pb
      let ps := strTrim ps
      match scanScore (strSplit ';' parameters) 1 with
      | .error s => .error (mkBadRequest ("Invalid Accept media type score: " ++ s))
      | .ok score =>
        if score ≤ acc.2 then negotiateLoop supported rest acc
        else
          match findCandidate pb ps range supported with
          | .error e => .error e
          | .ok none => negotiateLoop supported rest acc
          | .ok (some c) => negotiateLoop supported rest (some c, score)

/-- `content_negotiation`, up to (but not including) the final
`parse(result)` call: returns the selected supported candidate string.
An absent Accept header reaches this function as the empty string. -/
def contentNegotiationCore (supported : List String) (header : String) :
    Except HttpError String :=
  if strIsEmpty header then
    match supported.head? with
    | some c => .ok c
    | none => .error (mkInternalServerError "Unknown media type")
  else
    match negotiateLoop supported (strSplit ',' header) (none, 0) with
    | .error e => .error e
    | .ok (some c, _) => .ok c
    | .ok (none, _) =>
      .error ⟨406, "The available Content-Types are " ++ joinWith ", " supported⟩

/-! The same negotiation algorithm on already-parsed Accept entries; this is
the level at which the universally quantified parts of the negotiation
contract are stated.  A parsed entry is a media range plus its score. -/

/-- One parsed Accept entry: trimmed type, trimmed subtype and `q`-score. -/
structure MediaRange where
  base : String
  sub : String
  score : ℚ
deriving DecidableEq

/-- One iteration of the negotiation loop on a parsed entry against parsed
candidates: skips the entry unless its score strictly exceeds the running
best, otherwise replaces the result with the earliest matching candidate. -/
def negotiateStep (supported : List (String × String))
    (acc : Option (String × String) × ℚ) (e : MediaRange) :
    Option (String × String) × ℚ :=
  if e.score ≤ acc.2 then acc
  else
    match supported.find? (fun c => entryMatches e.base e.sub c.1 c.2) with
    | some c => (some c, e.score)
    | none => acc

/-- The negotiation loop over parsed entries, from `(None, 0.0)`. -/
def negotiateEntries (supported : List (String × String)) (entries : List MediaRange) :
    Option (String × String) × ℚ :=
  entries.foldl (negotiateStep supported) (none, 0)

/-- The candidate an entry would select, if any. -/
def entryMatchOf (supported : List (String × String)) (e : MediaRange) :
    Option (String × String) :=
  supported.find? (fun c => entryMatches e.base e.sub c.1 c.2)

/-! ### Concrete format lists (media types from the oxigraph / sparesults
collaborators, as listed in `query_results_content_negotiation`,
`graph_content_negotiation` and `dataset_content_negotiation`). -/

/-- `sparesults::QueryResultsFormat`. -/
inductive QueryResultsFormatT where
  | json
  | xml
  | csv
  | tsv
deriving DecidableEq

/-- `QueryResultsFormat::media_type`. -/
def QueryResultsFormatT.mediaType : QueryResultsFormatT → String
  | .json => "application/sparql-results+json"
  | .xml => "application/sparql-results+xml"
  | .csv => "text/csv; charset=utf-8"
  | .tsv => "text/tab-separated-values; charset=utf-8"

/-- `QueryResultsFormat::from_media_type` (external collaborator), on the
essence part of the media type. -/
def queryResultsFormatFromMediaType (s : String) : Option QueryResultsFormatT :=
  match strTrim ((strSplitOnce ';' s).elim s Prod.fst) with
  | "application/sparql-results+json" => some .json
  | "application/json" => some .json
  | "application/sparql-results+xml" => some .xml
  | "application/xml" => some .xml
  | "text/csv" => some .csv
  | "text/tab-separated-values" => some .tsv
  | _ => none

/-- The ranked supported list of `query_results_content_negotiation`:
json, xml, csv, tsv. -/
def queryResultsSupported : List String :=
  [QueryResultsFormatT.json.mediaType, QueryResultsFormatT.xml.mediaType,
   QueryResultsFormatT.csv.mediaType, QueryResultsFormatT.tsv.mediaType]

/-- `query_results_content_negotiation`: negotiation over the four query
results formats followed by `QueryResultsFormat::from_media_type`. -/
def queryResultsContentNegotiation (header : String) :
    Except HttpError QueryResultsFormatT :=
  match contentNegotiationCore queryResultsSupported header with
  | .error e => .error e
  | .ok c =>
    match queryResultsFormatFromMediaType c with
    | some f => .ok f
    | none => .error (mkInternalServerError "Unknown media type")

/-- `oxigraph::io::GraphFormat`. -/
inductive GraphFormatT where
  | ntriples
  | turtle
  | rdfxml
deriving DecidableEq

/-- `GraphFormat::media_type`. -/
def GraphFormatT.mediaType : GraphFormatT → String
  | .ntriples => "application/n-triples"
  | .turtle => "text/turtle"
  | .rdfxml => "application/rdf+xml"

/-- `GraphFormat::from_extension` (external collaborator). -/
def graphFormatFromExtension (s : String) : Option GraphFormatT :=
  match s with
  | "nt" => some .ntriples
  | "ttl" => some .turtle
  | "rdf" => some .rdfxml
  | _ => none

/-- `oxigraph::io::DatasetFormat`. -/
inductive DatasetFormatT where
  | nquads
  | trig
deriving DecidableEq

/-- `DatasetFormat::from_extension` (external collaborator). -/
def datasetFormatFromExtension (s : String) : Option DatasetFormatT :=
  match s with
  | "nq" => some .nquads
  | "trig" => some .trig
  | _ => none

/-- The ranked supported list of `graph_content_negotiation`:
N-Triples, Turtle, RDF/XML. -/
def graphSupported : List String :=
  [GraphFormatT.ntriples.mediaType, GraphFormatT.turtle.mediaType,
   GraphFormatT.rdfxml.mediaType]

/-- `graph_content_negotiation`, returning the selected candidate string. -/
def graphContentNegotiation (header : String) : Except HttpError String :=
  contentNegotiationCore graphSupported header

/-- `content_type` in src/main.rs / src/sparql.rs: the essence part of the
`Content-Type` header, trimmed and ASCII-lowercased. -/
def contentTypeOf (raw : String) : String :=
  strLower (strTrim ((strSplitOnce ';' raw).elim raw Prod.fst))

/-- Equality of `Except` results is decidable when both sides are; used to
evaluate the embedded handlers on concrete inputs. -/
instance {ε α : Type} [DecidableEq ε] [DecidableEq α] : DecidableEq (Except ε α) := fun a b =>
  match a, b with
  | .ok x, .ok y =>
    decidable_of_iff (x = y) ⟨fun hxy => by rw [hxy], fun hxy => by cases hxy; rfl⟩
  | .error x, .error y =>
    decidable_of_iff (x = y) ⟨fun hxy => by rw [hxy], fun hxy => by cases hxy; rfl⟩
  | .ok _, .error _ => .isFalse fun hxy => by cases hxy
  | .error _, .ok _ => .isFalse fun hxy => by cases hxy

/-! ## SPARQL protocol parameter resolution
(`configure_and_evaluate_sparql_query`, src/main.rs lines 462-496 and
src/sparql.rs lines 76-110; `configure_and_evaluate_sparql_update`,
src/main.rs lines 591-625).

A "source" is the list of decoded key/value pairs that
`url::form_urlencoded::parse` (an external collaborator) yields for one
encoded byte source (the URL query string, or the form-encoded body). -/

/-- The accumulator of the parameter loop of
`configure_and_evaluate_sparql_query`. -/
structure QueryConfig where
  query : Option String
  defaultGraphUris : List String
  namedGraphUris : List String
  useDefaultGraphAsUnion : Bool
deriving DecidableEq

/-- One iteration of the `for (k, v)` loop of
`configure_and_evaluate_sparql_query`. -/
def queryPairStep (st : QueryConfig) (kv : String × String) : Except HttpError QueryConfig :=
  match kv.1 with
  | "query" =>
    if st.query.isSome then .error (mkBadRequest "Multiple query parameters provided")
    else .ok { st with query := some kv.2 }
  | "default-graph-uri" => .ok { st with defaultGraphUris := st.defaultGraphUris ++ [kv.2] }
  | "union-default-graph" => .ok { st with useDefaultGraphAsUnion := true }
  | "named-graph-uri" => .ok { st with namedGraphUris := st.namedGraphUris ++ [kv.2] }
  | _ => .ok st

/-- The inner loop over the pairs of one source. -/
def queryPairsLoop : QueryConfig → List (String × String) → Except HttpError QueryConfig
  | st, [] => .ok st
  | st, kv :: rest =>
    match queryPairStep st kv with
    | .error e => .error e
    | .ok st' => queryPairsLoop st' rest

/-- The outer loop over the encoded sources. -/
def querySourcesLoop : QueryConfig → List (List (String × String)) → Except HttpError QueryConfig
  | st, [] => .ok st
  | st, src :: rest =>
    match queryPairsLoop st src with
    | .error e => .error e
    | .ok st' => querySourcesLoop st' rest

/-- `configure_and_evaluate_sparql_query` up to (but not including) the call
to `evaluate_sparql_query`: resolves the protocol parameters from the
ordered sources.  `query0` is the `query` argument the handler passes in
(the raw body for `Content-Type: application/sparql-query`, `None`
otherwise). -/
def configureSparqlQuery (sources : List (List (String × String))) (query0 : Option String) :
    Except HttpError QueryConfig :=
  match querySourcesLoop ⟨query0, [], [], false⟩ sources with
  | .error e => .error e
  | .ok st =>
    match st.query with
    | none => .error (mkBadRequest "You should set the \x27query\x27 parameter")
    | some _ => .ok st

/-- The accumulator of the parameter loop of
`configure_and_evaluate_sparql_update`. -/
structure UpdateConfig where
  update : Option String
  defaultGraphUris : List String
  namedGraphUris : List String
  useDefaultGraphAsUnion : Bool
deriving DecidableEq

/-- One iteration of the `for (k, v)` loop of
`configure_and_evaluate_sparql_update`. -/
def updatePairStep (st : UpdateConfig) (kv : String × String) : Except HttpError UpdateConfig :=
  match kv.1 with
  | "update" =>
    if st.update.isSome then .error (mkBadRequest "Multiple update parameters provided")
    else .ok { st with update := some kv.2 }
  | "using-graph-uri" => .ok { st with defaultGraphUris := st.defaultGraphUris ++ [kv.2] }
  | "using-union-graph" => .ok { st with useDefaultGraphAsUnion := true }
  | "using-named-graph-uri" => .ok { st with namedGraphUris := st.namedGraphUris ++ [kv.2] }
  | _ => .ok st

/-- The inner loop over the pairs of one source (update variant). -/
def updatePairsLoop : UpdateConfig → List (String × String) → Except HttpError UpdateConfig
  | st, [] => .ok st
  | st, kv :: rest =>
    match updatePairStep st kv with
    | .error e => .error e
    | .ok st' => updatePairsLoop st' rest

/-- The outer loop over the encoded sources (update variant). -/
def updateSourcesLoop : UpdateConfig → List (List (String × String)) → Except HttpError UpdateConfig
  | st, [] => .ok st
  | st, src :: rest =>
    match updatePairsLoop st src with
    | .error e => .error e
    | .ok st' => updateSourcesLoop st' rest

/-- `configure_and_evaluate_sparql_update` up to the call to
`evaluate_sparql_update`. -/
def configureSparqlUpdate (sources : List (List (String × String))) (update0 : Option String) :
    Except HttpError UpdateConfig :=
  match updateSourcesLoop ⟨update0, [], [], false⟩ sources with
  | .error e => .error e
  | .ok st =>
    match st.update with
    | none => .error (mkBadRequest "You should set the \x27update\x27 parameter")
    | some _ => .ok st

/-! ## Body-size limiting on POST /query and POST /update
(src/main.rs lines 26, 184-252).  The request body is a byte list; the
handlers read it through `.take(MAX_SPARQL_BODY_SIZE)`.  UTF-8 decoding
(`read_to_string`) and form decoding (`form_urlencoded::parse`) are
external collaborators, passed as parameters. -/

/-- `const MAX_SPARQL_BODY_SIZE: u64 = 0x0010_0000`. -/
def MAX_SPARQL_BODY_SIZE : Nat := 0x00100000

/-- The `("/query", "POST")` arm of `handle_request`, up to parameter
resolution.  `utf8Decode` models `Read::read_to_string` on the taken bytes
(`none` = invalid UTF-8, which the handler maps to `BadRequest`);
`formParse` models `form_urlencoded::parse`; `urlQueryPairs` is the parsed
URL query string. -/
def handleQueryPost (formParse : List Nat → List (String × String))
    (utf8Decode : List Nat → Option String)
    (contentTypeHeader : Option String)
    (urlQueryPairs : List (String × String)) (body : List Nat) :
    Except HttpError QueryConfig :=
  match contentTypeHeader with
  | none => .error (mkBadRequest "No Content-Type given")
  | some raw =>
    let ct := contentTypeOf raw
    if ct = "application/sparql-query" then
      match utf8Decode (body.take MAX_SPARQL_BODY_SIZE) with
      | none => .error (mkBadRequest "stream did not contain valid UTF-8")
      | some buffer => configureSparqlQuery [urlQueryPairs] (some buffer)
    else if ct = "application/x-www-form-urlencoded" then
      configureSparqlQuery [urlQueryPairs, formParse (body.take MAX_SPARQL_BODY_SIZE)] none
    else .error (mkUnsupportedMediaType ct)

/-- The `("/update", "POST")` arm of `handle_request` (after the read-only
check), up to parameter resolution. -/
def handleUpdatePost (formParse : List Nat → List (String × String))
    (utf8Decode : List Nat → Option String)
    (contentTypeHeader : Option String)
    (urlQueryPairs : List (String × String)) (body : List Nat) :
    Except HttpError UpdateConfig :=
  match contentTypeHeader with
  | none => .error (mkBadRequest "No Content-Type given")
  | some raw =>
    let ct := contentTypeOf raw
    if ct = "application/sparql-update" then
      match utf8Decode (body.take MAX_SPARQL_BODY_SIZE) with
      | none => .error (mkBadRequest "stream did not contain valid UTF-8")
      | some buffer => configureSparqlUpdate [urlQueryPairs] (some buffer)
    else if ct = "application/x-www-form-urlencoded" then
      configureSparqlUpdate [urlQueryPairs, formParse (body.take MAX_SPARQL_BODY_SIZE)] none
    else .error (mkUnsupportedMediaType ct)

/-! ## The graph store interface and the /store handlers
(src/main.rs lines 303-348 for PUT, 379-415 for POST with a target,
677-727 for target resolution and the existence check).

The oxigraph `Store` is an external collaborator; it is modelled at its
interface: a default graph plus a partial map from IRIs to named-graph
contents.  Triples are opaque (`String`); a request body is modelled as the
list of triples it parses to, since RDF parsing is out of scope. -/

/-- `enum NamedGraphName { NamedNode(NamedNode), DefaultGraph }`. -/
inductive NamedGraphName where
  | namedNode (iri : String)
  | defaultGraph
deriving DecidableEq

/-- Interface-level model of the oxigraph `Store`: contents of the default
graph, and contents of each existing named graph. -/
structure RdfStore where
  defaultGraph : List String
  namedGraphs : String → Option (List String)

/-- `Store::contains_named_graph`. -/
def containsNamedGraph (s : RdfStore) (iri : String) : Bool := (s.namedGraphs iri).isSome

/-- `Store::clear_graph`: empties a graph's contents; a cleared named graph
keeps existing. -/
def clearGraph (s : RdfStore) : NamedGraphName → RdfStore
  | .defaultGraph => { s with defaultGraph := [] }
  | .namedNode iri =>
    { s with namedGraphs := fun x => if x = iri then (s.namedGraphs iri).map (fun _ => []) else s.namedGraphs x }

/-- `Store::insert_named_graph`: registers an empty named graph if absent. -/
def insertNamedGraph (s : RdfStore) (iri : String) : RdfStore :=
  { s with namedGraphs := fun x => if x = iri then some ((s.namedGraphs iri).getD []) else s.namedGraphs x }

/-- `Store::remove_named_graph`. -/
def removeNamedGraph (s : RdfStore) (iri : String) : RdfStore :=
  { s with namedGraphs := fun x => if x = iri then none else s.namedGraphs x }

/-- `web_load_graph` (successful case): appends the parsed triples of the
request body to the targeted graph; loading into an absent named graph
creates it. -/
def loadGraph (s : RdfStore) (target : NamedGraphName) (body : List String) : RdfStore :=
  match target with
  | .defaultGraph => { s with defaultGraph := s.defaultGraph ++ body }
  | .namedNode iri =>
    { s with namedGraphs := fun x => if x = iri then some ((s.namedGraphs iri).getD [] ++ body) else s.namedGraphs x }

/-- `assert_that_graph_exists(..).is_ok()`: the default graph always
exists; a named graph exists iff the store contains it. -/
def graphExists (s : RdfStore) : NamedGraphName → Bool
  | .defaultGraph => true
  | .namedNode iri => containsNamedGraph s iri

/-- The contents of a targeted graph (empty for an absent named graph). -/
def graphContents (s : RdfStore) : NamedGraphName → List String
  | .defaultGraph => s.defaultGraph
  | .namedNode iri => (s.namedGraphs iri).getD []

/-- The `(path, "PUT")` /store arm of `handle_request` for a resolved graph
target (src/main.rs lines 309-340): computes `new`, clears or inserts, then
loads the body; returns the status and the resulting store. -/
def handleStorePut (s : RdfStore) (target : NamedGraphName) (body : List String) :
    Nat × RdfStore :=
  match target with
  | .namedNode iri =>
    if containsNamedGraph s iri then
      -- existing graph: cleared, `new = !true = false` ⇒ 204
      (204, loadGraph (clearGraph s (.namedNode iri)) (.namedNode iri) body)
    else
      -- absent graph: inserted, `new = !false = true` ⇒ 201
      (201, loadGraph (insertNamedGraph s iri) (.namedNode iri) body)
  | .defaultGraph =>
    (204, loadGraph (clearGraph s .defaultGraph) .defaultGraph body)

/-- The `(path, "POST")` /store arm of `handle_request` for a resolved graph
target (src/main.rs lines 385-395): `new` is
`assert_that_graph_exists(..).is_ok()`, the body is appended, and the
status is `CREATED` when `new` holds, `NO_CONTENT` otherwise. -/
def handleStorePost (s : RdfStore) (target : NamedGraphName) (body : List String) :
    Nat × RdfStore :=
  let new := graphExists s target
  (if new then 201 else 204, loadGraph s target body)

/-! ## The streaming adapter `ReadForWrite`
(src/main.rs lines 957-1015 and src/sparql.rs lines 323-381).

The step function `add_more_data : O → io::Result<Option<O>>` writes bytes
through a shared writer into the internal buffer and returns either a new
state, `None` (finished; the final `writer.finish()` bytes are already in
the buffer), or an error.  Because the state type is opaque and the adapter
only ever applies the step function to the state it was last given, a
producer is modelled extensionally by the stream of step outputs: the byte
chunks of the successful steps, followed by how the stream stops. -/

/-- How the producer's step function stops: `done bytes` models
`Ok(None)` after writing `bytes` (the serializer's `finish()` output);
`fail bytes msg` models `Err(e)` after writing `bytes`, where `msg` is
`e.to_string().as_bytes()`. -/
inductive StepEnd where
  | done (bytes : List Nat)
  | fail (bytes : List Nat) (msg : List Nat)
deriving DecidableEq

/-- The remaining behaviour of a producer: the chunks the remaining
successful steps will write, then the stop behaviour. -/
structure Producer where
  chunks : List (List Nat)
  stop : StepEnd
deriving DecidableEq

/-- The adapter state: internal buffer, read cursor, and the remaining
producer (`None` once the step function returned `None` or failed),
mirroring the `buffer` / `position` / `state` fields of `ReadForWrite`. -/
structure RFW where
  buffer : List Nat
  position : Nat
  state : Option Producer
deriving DecidableEq

/-- The body of the `while self.position == self.buffer.borrow().len()`
loop once the producer is being pumped: each iteration clears the buffer,
runs one step, and re-checks; on `Err` the error message is appended to
the bytes the failing step wrote and the state becomes `None`. -/
def pumpChunks : List (List Nat) → StepEnd → RFW
  | [], stop =>
    match stop with
    | .done bs => ⟨bs, 0, none⟩
    | .fail bs msg => ⟨bs ++ msg, 0, none⟩
  | c :: rest, stop =>
    if c.isEmpty then pumpChunks rest stop else ⟨c, 0, some ⟨rest, stop⟩⟩

/-- The full pump loop of `ReadForWrite::read`: runs only while the cursor
sits at the end of the buffer, and stops as soon as the buffer holds
unserved bytes or the state is exhausted. -/
def pump (r : RFW) : RFW :=
  if r.position = r.buffer.length then
    match r.state with
    | none => r
    | some p => pumpChunks p.chunks p.stop
  else r

/-- `ReadForWrite::read` for a consumer buffer of size `bufLen`: returns the
bytes served and the successor state.  `min(buffer.len() - position,
buf.len())` bytes are copied from the cursor. -/
def rfwRead (bufLen : Nat) (r : RFW) : List Nat × RFW :=
  if (pump r).position = (pump r).buffer.length then ([], pump r)
  else
    (((pump r).buffer.drop (pump r).position).take
        (min ((pump r).buffer.length - (pump r).position) bufLen),
     ⟨(pump r).buffer,
      (pump r).position + min ((pump r).buffer.length - (pump r).position) bufLen,
      (pump r).state⟩)

/-- The adapter as built by `build_response`: the initializer's writes
(`initBytes`) are already in the buffer, the cursor is 0 and the producer is
pending. -/
def rfwInit (initBytes : List Nat) (p : Producer) : RFW := ⟨initBytes, 0, some p⟩

/-- The bytes contributed by the stop step (including, in the failure case,
the error-message trailer). -/
def stopBytes : StepEnd → List Nat
  | .done bs => bs
  | .fail bs msg => bs ++ msg

/-- All bytes a producer will still contribute. -/
def producerContent (p : Producer) : List Nat := p.chunks.flatten ++ stopBytes p.stop

/-- All bytes an adapter state will still serve. -/
def rfwContent (r : RFW) : List Nat :=
  r.buffer.drop r.position ++ (match r.state with | none => [] | some p => producerContent p)

/-- A termination measure for draining an adapter. -/
def rfwMeasure (r : RFW) : Nat :=
  (r.buffer.length - r.position) +
    (match r.state with
     | none => 0
     | some p => (producerContent p).length + p.chunks.length + 1)

/-- Repeatedly pull `bufLen`-sized reads until a read returns no bytes,
concatenating everything served.  `fuel` bounds the number of pulls; any
`fuel ≥ rfwMeasure r` is enough when `bufLen ≥ 1`. -/
def readAllFuel : Nat → Nat → RFW → List Nat
  | 0, _, _ => []
  | fuel + 1, bufLen, r =>
    match rfwRead bufLen r with
    | (served, r') => if served.isEmpty then [] else served ++ readAllFuel fuel bufLen r'

/-- Successive pulls whose consumer buffer sizes follow `sizes`,
concatenating everything served (a pull on a finished stream serves
nothing). -/
def readAllSizes : List Nat → RFW → List Nat
  | [], _ => []
  | n :: rest, r =>
    match rfwRead n r with
    | (served, r') => served ++ readAllSizes rest r'

/-- The adapter's terminal configuration: the step function has returned
`None` (or failed and the trailer was drained) and the buffer is fully
served. -/
def rfwTerminal (r : RFW) : Prop := r.state = none ∧ r.position = r.buffer.length

/-! ## Search federation (src/search.rs).

The tantivy reader/searcher/query-parser and the backing oxigraph store are
external collaborators, modelled by `SearchEnv`.  A retrieved index
document is modelled by its stored `iri` field value; the `score` of a hit
does not influence the handler and is dropped. -/

/-- A stored field value of a tantivy document: a string, or some other
value kind (`as_str()` returns `None` on the latter). -/
inductive FieldValue where
  | str (s : String)
  | other
deriving DecidableEq

/-- A retrieved tantivy document, reduced to `get_first(iri_field)`. -/
structure TantivyDoc where
  iri : Option FieldValue
deriving DecidableEq

/-- The result kinds of `Store::query` (`QueryResults`). -/
inductive StoreQueryResult where
  | graph (triples : List String)
  | solutions
  | boolean
deriving DecidableEq

/-- The environment a search request runs against. -/
structure SearchEnv where
  /-- `searcher.num_docs()`. -/
  numDocs : Nat
  /-- whether `tantivy_query_parser.parse_query` succeeds on the `query`
  parameter. -/
  parseOk : Bool
  /-- `searcher.search(&query, &Count)`. -/
  countResult : Except String Nat
  /-- `searcher.search(&query, &TopDocs...)` followed by per-hit
  `searcher.doc(..)`: each element is one hit's document retrieval. -/
  topDocsResult : Except String (List (Except String TantivyDoc))
  /-- `oxigraph_store.query` on the graph store. -/
  storeQuery : String → Except String StoreQueryResult
  /-- the operator-supplied `index_result_sparql`. -/
  indexResultSparql : String

/-- `ParsedUrl` of src/search.rs. -/
structure SearchParsedUrl where
  limit : Nat
  offset : Nat
  query : String
deriving DecidableEq

/-- The `HashMap` built by `url.query_pairs().into_owned().collect()`:
for a repeated key the last occurrence wins. -/
def lookupLast (pairs : List (String × String)) (k : String) : Option String :=
  (pairs.reverse.find? (fun kv => kv.1 == k)).map Prod.snd

/-- `ParsedUrl::parse`: `limit` defaults to 10, `offset` to 0, `query` is
required; number parsing failures and the missing query are string errors
(mapped to `BadRequest` by the handler). -/
def parseSearchUrl (pairs : List (String × String)) : Except String SearchParsedUrl :=
  match
    (match lookupLast pairs "limit" with
     | some s => (strToNat s).elim (Except.error "error parsing limit") Except.ok
     | none => .ok 10) with
  | .error e => .error e
  | .ok limit =>
    match
      (match lookupLast pairs "offset" with
       | some s => (strToNat s).elim (Except.error "error parsing offset") Except.ok
       | none => .ok 0) with
    | .error e => .error e
    | .ok offset =>
      match lookupLast pairs "query" with
      | none => .error "missing query string"
      | some q => .ok ⟨limit, offset, q⟩

/-- A search response: status, the `X-Total-Count` header value, the triples
of the response graph (before serialization) and the negotiated
content type. -/
structure SearchResponse where
  status : Nat
  xTotalCount : Option String
  bodyTriples : List String
  contentType : Option String
deriving DecidableEq

/-- Which collaborator steps a search request executed: how many times the
counting collector ran, how many times the top-docs retrieval ran, and the
graph-retrieval queries issued (in order). -/
structure SearchTrace where
  countRuns : Nat
  topDocsRuns : Nat
  graphQueries : List String
deriving DecidableEq

/-- `Store::insert` on the per-request results store: quad sets collapse
duplicates. -/
def insertTriple (acc : List String) (t : String) : List String :=
  if t ∈ acc then acc else acc ++ [t]

/-- Inserting every triple of a retrieval result. -/
def insertTriples (acc : List String) (ts : List String) : List String :=
  ts.foldl insertTriple acc

/-- The retrieval query built for one hit:
`format!("{}\nVALUES ?iri {{ {} }}", index_result_sparql, iri)`. -/
def hitQuery (indexResultSparql iri : String) : String :=
  indexResultSparql ++ "\nVALUES ?iri \x7b " ++ iri ++ " \x7d"

/-- The `for (_score, doc_address) in top_docs` loop of
src/search.rs lines 129-179: per hit, retrieve the document, extract the
stored `iri` as a string (silently skipping the hit when absent or not a
string), run the retrieval query, and merge the returned graph into the
results store.  Returns the final results store (or the loop's error) plus
the retrieval queries executed. -/
def searchDocsLoop (storeQuery : String → Except String StoreQueryResult)
    (indexResultSparql : String) :
    List (Except String TantivyDoc) → List String → List String →
    Except HttpError (List String) × List String
  | [], store, trace => (.ok store, trace)
  | d :: rest, store, trace =>
    match d with
    | .error e => (.error ⟨500, e⟩, trace)
    | .ok doc =>
      match doc.iri with
      | none => searchDocsLoop storeQuery indexResultSparql rest store trace
      | some .other => searchDocsLoop storeQuery indexResultSparql rest store trace
      | some (.str iri) =>
        let q := hitQuery indexResultSparql iri
        match storeQuery q with
        | .error _ =>
          (.error ⟨500, "error executing index result query"⟩, trace ++ [q])
        | .ok (.graph ts) =>
          searchDocsLoop storeQuery indexResultSparql rest (insertTriples store ts)
            (trace ++ [q])
        | .ok _ =>
          (.error ⟨500,
            "index result query did not return a graph (is it a CONSTRUCT query?)"⟩,
           trace ++ [q])

/-- `search::handle_request`: the full search federation pipeline, returning
the response (or error) together with the execution trace.  The schema's
`iri` field lookup always succeeds (src/index.rs declares it), and the
final `CONSTRUCT WHERE { ?s ?p ?o }` over the in-memory results store
yields exactly its triples. -/
def searchHandleRequest (env : SearchEnv) (method : String)
    (urlPairs : List (String × String)) (acceptHeader : String) :
    Except HttpError SearchResponse × SearchTrace :=
  if method ≠ "GET" then
    (.error ⟨405, method ++ " is not supported by this server"⟩, ⟨0, 0, []⟩)
  else
    match parseSearchUrl urlPairs with
    | .error e => (.error ⟨400, e⟩, ⟨0, 0, []⟩)
    | .ok params =>
      if env.parseOk = false then
        (.error ⟨400, "query parse error"⟩, ⟨0, 0, []⟩)
      else if env.numDocs = 0 then
        (.error ⟨500, "index is empty"⟩, ⟨0, 0, []⟩)
      else
        match env.countResult with
        | .error _ => (.error ⟨500, "error searching index"⟩, ⟨1, 0, []⟩)
        | .ok count =>
          if params.limit = 0 then
            (.ok ⟨204, some (toString count), [], none⟩, ⟨1, 0, []⟩)
          else
            match env.topDocsResult with
            | .error _ => (.error ⟨500, "error searching index"⟩, ⟨1, 1, []⟩)
            | .ok docs =>
              match searchDocsLoop env.storeQuery env.indexResultSparql docs [] [] with
              | (.error e, qs) => (.error e, ⟨1, 1, qs⟩)
              | (.ok store, qs) =>
                match graphContentNegotiation acceptHeader with
                | .error e => (.error e, ⟨1, 1, qs⟩)
                | .ok fmt =>
                  (.ok ⟨200, some (toString count), store, some fmt⟩, ⟨1, 1, qs⟩)

/-- A hit whose retrieved document lacks a stored `iri` value, or whose
value is not a string, is silently skipped by the federation loop. -/
def docSilentlySkipped (d : Except String TantivyDoc) : Bool :=
  match d with
  | .error _ => false
  | .ok doc =>
    match doc.iri with
    | some (.str _) => false
    | _ => true

/-! ## Startup bulk loading (src/init.rs, `init_oxigraph` lines 117-199).

Per worker (one file each): open the file, detect the format from the file
extension — through `GraphOrDatasetFormat::from_path(..).unwrap()`, which
panics on a detection failure — then bulk-load.  Open errors and load
errors are caught and logged (`eprintln!`) and the worker returns normally.
The file system and the loader are external: a file is modelled by its
name, whether opening succeeds, and whether the bulk load succeeds. -/

/-- `GraphOrDatasetFormat` of src/init.rs. -/
inductive GraphOrDatasetFormatT where
  | graph (g : GraphFormatT)
  | dataset (d : DatasetFormatT)
deriving DecidableEq

/-- `GraphOrDatasetFormat::from_extension`. -/
def godFromExtension (name : String) : Except String GraphOrDatasetFormatT :=
  match graphFormatFromExtension name, datasetFormatFromExtension name with
  | some _, some _ =>
    .error ("The file extension \x27" ++ name ++
      "\x27 can be resolved to both a graph and a dataset format, not sure what to pick")
  | some g, none => .ok (.graph g)
  | none, some d => .ok (.dataset d)
  | none, none => .error ("The file extension \x27" ++ name ++ "\x27 is unknown")

/-- Rust `Path::extension` on a file name: the portion after the final `.`,
none when there is no `.` or when the name is a dotfile with no further
`.`. -/
def pathExtension (name : String) : Option String :=
  match splitOnChar '.' name.data with
  | [] => none
  | [_] => none
  | first :: rest =>
    if first.isEmpty && rest.length = 1 then none
    else (rest.getLast?).map String.mk

/-- Rust `Path::with_extension("")`: the name with its extension (and its
dot) removed. -/
def withExtensionStripped (name : String) : String :=
  match pathExtension name with
  | none => name
  | some ext => String.mk (name.data.take (name.data.length - (ext.length + 1)))

/-- `format_from_path` ∘ `GraphOrDatasetFormat::from_extension`
(src/init.rs lines 26-38 and 55-71). -/
def formatFromPath (name : String) : Except String GraphOrDatasetFormatT :=
  match pathExtension name with
  | some ext => godFromExtension ext
  | none => .error ("The path " ++ name ++ " has no extension to guess a file format from")

/-- One ingestion file, at the interface with the file system and loader:
its name, whether `File::open` succeeds, and whether the bulk load of its
contents succeeds. -/
structure InitFile where
  name : String
  openOk : Bool
  loadOk : Bool
deriving DecidableEq

/-- How one spawned worker ends. -/
inductive WorkerOutcome where
  | loaded
  | loggedOpenError
  | loggedLoadError
  | panicked
deriving DecidableEq

/-- The closure spawned per file in `init_oxigraph`: an open error is
logged and the worker returns; the format is detected from the extension
(stripping a `.gz` suffix first) through `.unwrap()`, so a detection
failure panics the worker; a load error is logged and the worker
returns. -/
def workerRun (f : InitFile) : WorkerOutcome :=
  if f.openOk = false then .loggedOpenError
  else
    let fmt :=
      if pathExtension f.name = some "gz" then formatFromPath (withExtensionStripped f.name)
      else formatFromPath f.name
    match fmt with
    | .error _ => .panicked
    | .ok _ => if f.loadOk then .loaded else .loggedLoadError

/-- `init_oxigraph` at the supervisor level: every spawned worker runs to
completion (the scope joins them all); if any worker panicked, the panic
propagates out of the scope and `store.flush()` is never reached, otherwise
the supervisor issues exactly one flush.  Returns the worker outcomes and
the number of flushes issued (`none` = the function unwound before
flushing). -/
def initOxigraphRun (files : List InitFile) : List WorkerOutcome × Option Nat :=
  let outcomes := files.map workerRun
  if outcomes.contains .panicked then (outcomes, none)
  else (outcomes, some 1)

/-! # Theorems -/

/-! ## PUT /store and POST /store with a resolved target (C7, C8) -/

/-- C7: For every PUT /store request with a resolved graph target, an
existing target graph is replaced by the request body with status 204
No Content, and an absent one is created with the body's contents with
status 201 Created; either way the graph exists afterwards with exactly
the body as contents. -/
theorem putStore_replaces_graph (s : RdfStore) (target : NamedGraphName) (body : List String) :
    (handleStorePut s target body).1 = (if graphExists s target then 204 else 201) ∧
    graphContents (handleStorePut s target body).2 target = body ∧
    graphExists (handleStorePut s target body).2 target = true := by
  cases target with
  | defaultGraph =>
    simp [handleStorePut, graphExists, graphContents, loadGraph, clearGraph]
  | namedNode iri =>
    by_cases h : containsNamedGraph s iri
    · rcases Option.isSome_iff_exists.mp h with ⟨g, hg⟩
      simp [handleStorePut, graphExists, graphContents, loadGraph, clearGraph,
        insertNamedGraph, containsNamedGraph, h, hg]
    · simp [handleStorePut, graphExists, graphContents, loadGraph, clearGraph,
        insertNamedGraph, containsNamedGraph, h,
        Option.not_isSome_iff_eq_none.mp (by simpa [containsNamedGraph] using h)]

/-- C8: For every POST /store request with an explicit graph target, the
status is 201 Created exactly when the target already existed (the body is
appended to it), and 204 No Content exactly when it did not (the graph is
created by the load) — the reverse of the PUT /store convention. -/
theorem postStore_reversed_statuses (s : RdfStore) (target : NamedGraphName) (body : List String) :
    (handleStorePost s target body).1 = (if graphExists s target then 201 else 204) ∧
    graphContents (handleStorePost s target body).2 target = graphContents s target ++ body ∧
    graphExists (handleStorePost s target body).2 target = true := by
  cases target with
  | defaultGraph => simp [handleStorePost, graphExists, graphContents, loadGraph]
  | namedNode iri =>
    refine ⟨rfl, ?_, ?_⟩ <;>
      simp [handleStorePost, graphExists, graphContents, loadGraph, containsNamedGraph]

/-! ## Body-size limiting (C9) -/

/-- C9: On POST /query and POST /update at most the first
`MAX_SPARQL_BODY_SIZE = 0x0010_0000` bytes (1 MiB) of the request body are
read; the handler's outcome is a function of that prefix alone, so bytes
beyond the limit are ignored rather than causing a size-based rejection. -/
theorem sparqlBody_firstMiB_only :
    MAX_SPARQL_BODY_SIZE = 1048576 ∧
    (∀ formParse utf8Decode ct urlPairs (body : List Nat),
      handleQueryPost formParse utf8Decode ct urlPairs body =
        handleQueryPost formParse utf8Decode ct urlPairs (body.take MAX_SPARQL_BODY_SIZE)) ∧
    (∀ formParse utf8Decode ct urlPairs (body : List Nat),
      handleUpdatePost formParse utf8Decode ct urlPairs body =
        handleUpdatePost formParse utf8Decode ct urlPairs (body.take MAX_SPARQL_BODY_SIZE)) := by
  refine ⟨rfl, ?_, ?_⟩ <;>
    · intro formParse utf8Decode ct urlPairs body
      simp [handleQueryPost, handleUpdatePost, List.take_take]

/-! ## Startup bulk loading (C1) -/

/-- C1 counterexample: a file whose format cannot be detected from its
extension (here `data.json`) makes its worker panic through the
`.unwrap()` in `init_oxigraph`; the failure is not caught-and-logged, the
panic propagates out of the worker scope, and the supervisor's flush is
never reached.  This refutes the claim that every per-file failure
(including format-detection errors) is caught and logged and that the
flush always happens. -/
theorem bulkLoad_formatError_panics :
    workerRun ⟨"data.json", true, true⟩ = .panicked ∧
    (initOxigraphRun [⟨"data.json", true, true⟩]).2 = none := by decide

/-- C1 (amended): per-file open errors and load errors are caught and
logged and do not cancel sibling workers; provided no file triggers a
format-detection panic, every spawned worker runs to completion and the
supervisor issues exactly one flush afterwards. -/
theorem bulkLoad_partialFailure_one_flush (files : List InitFile)
    (h : ∀ f ∈ files, workerRun f ≠ WorkerOutcome.panicked) :
    (initOxigraphRun files).1 = files.map workerRun ∧
    (initOxigraphRun files).2 = some 1 ∧
    (∀ f ∈ files, workerRun f = .loaded ∨
      workerRun f = .loggedOpenError ∨ workerRun f = .loggedLoadError) := by
  have hc : (files.map workerRun).contains WorkerOutcome.panicked = false := by
    rw [List.contains_eq_any_beq]
    simp only [List.any_eq_false, List.mem_map]
    rintro o ⟨f, hf, rfl⟩
    rw [beq_iff_eq]
    exact Ne.symm (h f hf)
  have hrun : initOxigraphRun files = (files.map workerRun, some 1) := by
    simp only [initOxigraphRun, hc, Bool.false_eq_true, if_false]
  refine ⟨by rw [hrun], by rw [hrun], ?_⟩
  intro f hf
  cases ho : workerRun f with
  | loaded => exact Or.inl rfl
  | loggedOpenError => exact Or.inr (Or.inl rfl)
  | loggedLoadError => exact Or.inr (Or.inr rfl)
  | panicked => exact absurd ho (h f hf)

/-- Witness for C1 (amended): two files, one failing to open and one
failing to load, both with detectable formats. -/
theorem bulkLoad_partialFailure_one_flush_witness :
    (initOxigraphRun [⟨"a.nt", false, true⟩, ⟨"b.trig", true, false⟩]).1 =
      [WorkerOutcome.loggedOpenError, WorkerOutcome.loggedLoadError] ∧
    (initOxigraphRun [⟨"a.nt", false, true⟩, ⟨"b.trig", true, false⟩]).2 = some 1 := by
  have h := bulkLoad_partialFailure_one_flush
    [⟨"a.nt", false, true⟩, ⟨"b.trig", true, false⟩] (by decide)
  exact ⟨by decide, h.2.1⟩

/-! ## Parameter resolution for /query (C3) -/

theorem queryPairStep_other (st : QueryConfig) (kv : String × String) (h : ¬kv.1 = "query") :
    ∃ st', queryPairStep st kv = .ok st' ∧ st'.query = st.query := by
  unfold queryPairStep
  split
  · exact absurd (by assumption) h
  · exact ⟨_, rfl, rfl⟩
  · exact ⟨_, rfl, rfl⟩
  · exact ⟨_, rfl, rfl⟩
  · exact ⟨_, rfl, rfl⟩

theorem queryPairsLoop_no_occurrence :
    ∀ (pairs : List (String × String)) (st : QueryConfig),
      (pairs.filter (fun kv => kv.1 == "query")).length = 0 →
      ∃ st', queryPairsLoop st pairs = .ok st' ∧ st'.query = st.query := by
  intro pairs
  induction pairs with
  | nil => exact fun st _ => ⟨st, rfl, rfl⟩
  | cons kv rest ih =>
    intro st hlen
    have hk : (kv.1 == "query") = false := by
      by_contra hb
      simp only [Bool.not_eq_false] at hb
      simp [List.filter_cons, hb] at hlen
    have hne : ¬kv.1 = "query" := by simpa using hk
    obtain ⟨st', hstep, hq⟩ := queryPairStep_other st kv hne
    have hrest : (rest.filter (fun kv => kv.1 == "query")).length = 0 := by
      simpa [List.filter_cons, hk] using hlen
    obtain ⟨st'', hloop, hq'⟩ := ih st' hrest
    exact ⟨st'', by simpa [queryPairsLoop, hstep] using hloop, by rw [hq', hq]⟩

theorem queryPairsLoop_second_occurrence :
    ∀ (pairs : List (String × String)) (st : QueryConfig),
      st.query.isSome →
      1 ≤ (pairs.filter (fun kv => kv.1 == "query")).length →
      queryPairsLoop st pairs = .error (mkBadRequest "Multiple query parameters provided") := by
  intro pairs
  induction pairs with
  | nil => intro st _ hlen; simp at hlen
  | cons kv rest ih =>
    intro st hsome hlen
    by_cases hk : kv.1 = "query"
    · have : queryPairStep st kv = .error (mkBadRequest "Multiple query parameters provided") := by
        unfold queryPairStep
        rw [hk]
        simp [hsome]
      simp [queryPairsLoop, this]
    · obtain ⟨st', hstep, hq⟩ := queryPairStep_other st kv hk
      have hrest : 1 ≤ (rest.filter (fun kv => kv.1 == "query")).length := by
        simpa [List.filter_cons, beq_eq_false_iff_ne.mpr hk] using hlen
      have hsome' : st'.query.isSome := by rw [hq]; exact hsome
      simpa [queryPairsLoop, hstep] using ih st' hsome' hrest

theorem queryPairsLoop_single_occurrence :
    ∀ (pairs : List (String × String)) (st : QueryConfig) (kv : String × String),
      st.query = none →
      pairs.filter (fun kv => kv.1 == "query") = [kv] →
      ∃ st', queryPairsLoop st pairs = .ok st' ∧ st'.query = some kv.2 := by
  intro pairs
  induction pairs with
  | nil => intro st kv _ hfil; simp at hfil
  | cons p rest ih =>
    intro st kv hnone hfil
    by_cases hk : p.1 = "query"
    · have hbeq : (p.1 == "query") = true := by simpa using hk
      have hp : p = kv ∧ rest.filter (fun kv => kv.1 == "query") = [] := by
        have := hfil
        rw [List.filter_cons, if_pos hbeq] at this
        exact ⟨(List.cons_eq_cons.mp this).1, (List.cons_eq_cons.mp this).2⟩
      have hstep : queryPairStep st p = .ok { st with query := some p.2 } := by
        unfold queryPairStep
        rw [hk]
        simp [hnone]
      obtain ⟨st'', hloop, hq⟩ :=
        queryPairsLoop_no_occurrence rest { st with query := some p.2 }
          (by rw [hp.2]; rfl)
      exact ⟨st'', by simpa [queryPairsLoop, hstep] using hloop, by rw [hq, hp.1]⟩
    · have hbeq : (p.1 == "query") = false := beq_eq_false_iff_ne.mpr hk
      obtain ⟨st', hstep, hq⟩ := queryPairStep_other st p hk
      have hrest : rest.filter (fun kv => kv.1 == "query") = [kv] := by
        rw [List.filter_cons, if_neg (by simp [hbeq])] at hfil
        exact hfil
      obtain ⟨st'', hloop, hq'⟩ := ih st' kv (by rw [hq, hnone]) hrest
      exact ⟨st'', by simpa [queryPairsLoop, hstep] using hloop, hq'⟩

theorem queryPairsLoop_append :
    ∀ (l1 l2 : List (String × String)) (st : QueryConfig),
      queryPairsLoop st (l1 ++ l2) =
        match queryPairsLoop st l1 with
        | .error e => .error e
        | .ok st' => queryPairsLoop st' l2 := by
  intro l1
  induction l1 with
  | nil => intro l2 st; rfl
  | cons kv rest ih =>
    intro l2 st
    rw [List.cons_append]
    simp only [queryPairsLoop]
    cases h : queryPairStep st kv with
    | error e => rfl
    | ok st' => exact ih l2 st'

theorem querySourcesLoop_flatten :
    ∀ (sources : List (List (String × String))) (st : QueryConfig),
      querySourcesLoop st sources = queryPairsLoop st sources.flatten := by
  intro sources
  induction sources with
  | nil => intro st; rfl
  | cons src rest ih =>
    intro st
    show querySourcesLoop st (src :: rest) = queryPairsLoop st (src ++ rest.flatten)
    rw [queryPairsLoop_append]
    unfold querySourcesLoop
    cases queryPairsLoop st src with
    | error e => rfl
    | ok st' => exact ih st'

theorem queryPairsLoop_multi_occurrence :
    ∀ (pairs : List (String × String)) (st : QueryConfig),
      st.query = none →
      2 ≤ (pairs.filter (fun kv => kv.1 == "query")).length →
      queryPairsLoop st pairs = .error (mkBadRequest "Multiple query parameters provided") := by
  intro pairs
  induction pairs with
  | nil => intro st _ hlen; simp at hlen
  | cons p rest ih =>
    intro st hnone hlen
    by_cases hk : p.1 = "query"
    · have hbeq : (p.1 == "query") = true := by simpa using hk
      have hstep : queryPairStep st p = .ok { st with query := some p.2 } := by
        unfold queryPairStep
        rw [hk]
        simp [hnone]
      have hrest : 1 ≤ (rest.filter (fun kv => kv.1 == "query")).length := by
        rw [List.filter_cons, if_pos hbeq] at hlen
        simpa using Nat.le_of_succ_le_succ hlen
      have := queryPairsLoop_second_occurrence rest { st with query := some p.2 } rfl hrest
      simpa [queryPairsLoop, hstep] using this
    · have hbeq : (p.1 == "query") = false := beq_eq_false_iff_ne.mpr hk
      obtain ⟨st', hstep, hq⟩ := queryPairStep_other st p hk
      have hrest : 2 ≤ (rest.filter (fun kv => kv.1 == "query")).length := by
        simpa [List.filter_cons, hbeq] using hlen
      simpa [queryPairsLoop, hstep] using ih st' (by rw [hq, hnone]) hrest

/-- C3: For the required singular `query` parameter of the /query endpoint:
more than one occurrence across the ordered sources is a BadRequest
("Multiple query parameters provided"), no occurrence is a BadRequest
("You should set the 'query' parameter"), and exactly one occurrence is
accepted with that occurrence's value used. -/
theorem queryParam_resolution (sources : List (List (String × String))) :
    (2 ≤ ((sources.flatten).filter (fun kv => kv.1 == "query")).length →
      configureSparqlQuery sources none =
        .error (mkBadRequest "Multiple query parameters provided")) ∧
    (((sources.flatten).filter (fun kv => kv.1 == "query")).length = 0 →
      configureSparqlQuery sources none =
        .error (mkBadRequest "You should set the \x27query\x27 parameter")) ∧
    (∀ kv, (sources.flatten).filter (fun kv => kv.1 == "query") = [kv] →
      ∃ st, configureSparqlQuery sources none = .ok st ∧ st.query = some kv.2) := by
  refine ⟨?_, ?_, ?_⟩
  · intro hlen
    have hloop := queryPairsLoop_multi_occurrence sources.flatten ⟨none, [], [], false⟩ rfl hlen
    unfold configureSparqlQuery
    rw [querySourcesLoop_flatten, hloop]
  · intro hlen
    obtain ⟨st', hloop, hq⟩ :=
      queryPairsLoop_no_occurrence sources.flatten ⟨none, [], [], false⟩ hlen
    unfold configureSparqlQuery
    rw [querySourcesLoop_flatten, hloop]
    simp only [hq]
  · intro kv hfil
    obtain ⟨st', hloop, hq⟩ :=
      queryPairsLoop_single_occurrence sources.flatten ⟨none, [], [], false⟩ kv rfl hfil
    refine ⟨st', ?_, hq⟩
    unfold configureSparqlQuery
    rw [querySourcesLoop_flatten, hloop]
    simp only [hq]

/-- Witness for C3: `query` in two sources is rejected, `query` in no
source is rejected with the other message, `query` in exactly one source is
accepted with its value. -/
theorem queryParam_resolution_witness :
    configureSparqlQuery [[("query", "SELECT * WHERE \x7b ?s ?p ?o \x7d")], [("query", "b")]] none =
      .error (mkBadRequest "Multiple query parameters provided") ∧
    configureSparqlQuery [[("default-graph-uri", "http://g")], []] none =
      .error (mkBadRequest "You should set the \x27query\x27 parameter") ∧
    (∃ st, configureSparqlQuery [[("query", "SELECT 1")], []] none = .ok st ∧
      st.query = some "SELECT 1") :=
  ⟨(queryParam_resolution _).1 (by decide),
   (queryParam_resolution _).2.1 (by decide),
   (queryParam_resolution _).2.2 ("query", "SELECT 1") (by decide)⟩

/-! ## The streaming adapter (C5, C6) -/

theorem pumpChunks_content (chunks : List (List Nat)) (stop : StepEnd) :
    rfwContent (pumpChunks chunks stop) = chunks.flatten ++ stopBytes stop := by
  induction chunks with
  | nil => cases stop <;> simp [pumpChunks, rfwContent, stopBytes]
  | cons c rest ih =>
    by_cases hc : c.isEmpty
    · have hnil : c = [] := by simpa using hc
      simp [pumpChunks, hc, ih, hnil]
    · simp [pumpChunks, hc, rfwContent, producerContent]

theorem pumpChunks_position (chunks : List (List Nat)) (stop : StepEnd) :
    (pumpChunks chunks stop).position = 0 := by
  induction chunks with
  | nil => cases stop <;> rfl
  | cons c rest ih => by_cases hc : c.isEmpty <;> simp [pumpChunks, hc, ih]

theorem pumpChunks_state_or (chunks : List (List Nat)) (stop : StepEnd) :
    (pumpChunks chunks stop).state = none ∨ (pumpChunks chunks stop).buffer ≠ [] := by
  induction chunks with
  | nil => cases stop <;> exact Or.inl rfl
  | cons c rest ih =>
    by_cases hc : c.isEmpty
    · simpa [pumpChunks, hc] using ih
    · right
      simp only [pumpChunks, hc, Bool.false_eq_true, if_false]
      intro h
      exact hc (by simp [h])

theorem pump_content (r : RFW) : rfwContent (pump r) = rfwContent r := by
  unfold pump
  split
  · next hpos =>
    cases hs : r.state with
    | none => rfl
    | some p =>
      rw [pumpChunks_content]
      simp [rfwContent, hs, producerContent, hpos, List.drop_length]
  · rfl

theorem pump_wf (r : RFW) (hwf : r.position ≤ r.buffer.length) :
    (pump r).position ≤ (pump r).buffer.length := by
  unfold pump
  split
  · next hpos =>
    cases hs : r.state with
    | none => exact le_of_eq hpos
    | some p => rw [pumpChunks_position]; exact Nat.zero_le _
  · exact hwf

theorem pump_cases (r : RFW) (hwf : r.position ≤ r.buffer.length) :
    (pump r).state = none ∨ (pump r).position < (pump r).buffer.length := by
  unfold pump
  split
  · next hpos =>
    cases hs : r.state with
    | none => exact Or.inl hs
    | some p =>
      rcases pumpChunks_state_or p.chunks p.stop with hn | hb
      · exact Or.inl hn
      · right
        rw [pumpChunks_position]
        exact List.length_pos.mpr hb
  · next hpos =>
    exact Or.inr (lt_of_le_of_ne hwf hpos)

theorem rfwRead_content (bufLen : Nat) (r : RFW) :
    (rfwRead bufLen r).1 ++ rfwContent (rfwRead bufLen r).2 = rfwContent r := by
  unfold rfwRead
  split
  · next hpos => simpa using pump_content r
  · next hpos =>
    have hc := pump_content r
    simp only [rfwContent] at hc ⊢
    rw [← hc]
    have hdd :
        List.drop
            ((pump r).position + min ((pump r).buffer.length - (pump r).position) bufLen)
            (pump r).buffer =
          List.drop (min ((pump r).buffer.length - (pump r).position) bufLen)
            (List.drop (pump r).position (pump r).buffer) := by
      rw [List.drop_drop, Nat.add_comm]
    rw [hdd, ← List.append_assoc, List.take_append_drop]

theorem rfwRead_wf (bufLen : Nat) (r : RFW) (hwf : r.position ≤ r.buffer.length) :
    (rfwRead bufLen r).2.position ≤ (rfwRead bufLen r).2.buffer.length := by
  unfold rfwRead
  split
  · next hpos => exact le_of_eq hpos
  · next hpos =>
    have h := pump_wf r hwf
    simp only
    omega

theorem rfwRead_nil (bufLen : Nat) (r : RFW) (hb : 1 ≤ bufLen)
    (hwf : r.position ≤ r.buffer.length) (h : (rfwRead bufLen r).1 = []) :
    rfwContent r = [] := by
  rw [← pump_content r]
  unfold rfwRead at h
  split at h
  · next hpos =>
    rcases pump_cases r hwf with hn | hlt
    · simp [rfwContent, hn, hpos, List.drop_length]
    · exact absurd hpos (Nat.ne_of_lt hlt)
  · next hpos =>
    exfalso
    have hwf' := pump_wf r hwf
    have hlt : (pump r).position < (pump r).buffer.length := lt_of_le_of_ne hwf' hpos
    rcases List.take_eq_nil_iff.mp h with h0 | h0 <;>
      first
        | (rcases Nat.min_eq_zero_iff.mp h0 with h1 | h1 <;> omega)
        | (rw [List.drop_eq_nil_iff] at h0; omega)

theorem pumpChunks_measure (chunks : List (List Nat)) (stop : StepEnd) :
    rfwMeasure (pumpChunks chunks stop) ≤
      (chunks.flatten ++ stopBytes stop).length + chunks.length + 1 := by
  induction chunks with
  | nil =>
    cases stop <;> simp [pumpChunks, rfwMeasure, stopBytes]
  | cons c rest ih =>
    by_cases hc : c.isEmpty
    · have hnil : c = [] := by simpa using hc
      subst hnil
      simp only [pumpChunks, List.isEmpty_nil, if_true, List.flatten_cons, List.nil_append,
        List.length_cons]
      exact le_trans ih (by omega)
    · simp [pumpChunks, hc, rfwMeasure, producerContent]
      omega

theorem pump_measure (r : RFW) : rfwMeasure (pump r) ≤ rfwMeasure r := by
  unfold pump
  split
  · next hpos =>
    cases hs : r.state with
    | none => exact le_refl _
    | some p =>
      refine le_trans (pumpChunks_measure p.chunks p.stop) ?_
      simp [rfwMeasure, hs, producerContent, hpos]
  · exact le_refl _

theorem rfwRead_measure_lt (bufLen : Nat) (r : RFW) (h : (rfwRead bufLen r).1 ≠ []) :
    rfwMeasure (rfwRead bufLen r).2 < rfwMeasure r := by
  refine lt_of_lt_of_le ?_ (pump_measure r)
  unfold rfwRead at h ⊢
  split at h
  · exact absurd rfl h
  · next hpos =>
    rw [if_neg hpos]
    have hne : ((pump r).buffer.drop (pump r).position).take
        (min ((pump r).buffer.length - (pump r).position) bufLen) ≠ [] := h
    have hlen' := List.length_pos.mpr hne
    rw [List.length_take, List.length_drop, lt_min_iff] at hlen'
    obtain ⟨hm0, hp0⟩ := hlen'
    simp only [rfwMeasure]
    cases (pump r).state <;> simp only <;> omega

theorem rfwContent_length_le (r : RFW) : (rfwContent r).length ≤ rfwMeasure r := by
  simp only [rfwContent, rfwMeasure, List.length_append, List.length_drop]
  cases r.state with
  | none => simp
  | some p => simp [producerContent]; omega

theorem readAllFuel_eq_content :
    ∀ (fuel bufLen : Nat) (r : RFW), 1 ≤ bufLen →
      r.position ≤ r.buffer.length → rfwMeasure r ≤ fuel →
      readAllFuel fuel bufLen r = rfwContent r := by
  intro fuel
  induction fuel with
  | zero =>
    intro bufLen r _ _ hm
    have := rfwContent_length_le r
    have hnil : rfwContent r = [] := by
      apply List.eq_nil_of_length_eq_zero
      omega
    simp [readAllFuel, hnil]
  | succ fuel ih =>
    intro bufLen r hb hwf hm
    simp only [readAllFuel]
    rcases h : rfwRead bufLen r with ⟨served, r'⟩
    by_cases hs : served.isEmpty
    · have hnil : served = [] := by simpa using hs
      have := rfwRead_nil bufLen r hb hwf (by rw [h, hnil])
      simp [hs, this]
    · simp only [hs, Bool.false_eq_true, if_false]
      have hne : served ≠ [] := by simpa using hs
      have hlt : rfwMeasure r' < rfwMeasure r := by
        have := rfwRead_measure_lt bufLen r (by rw [h]; exact hne)
        rwa [h] at this
      have hwf' : r'.position ≤ r'.buffer.length := by
        have := rfwRead_wf bufLen r hwf
        rwa [h] at this
      rw [ih bufLen r' hb hwf' (by omega)]
      have := rfwRead_content bufLen r
      rwa [h] at this

theorem rfwRead_terminal (bufLen : Nat) (r : RFW) (hs : r.state = none)
    (hp : r.position = r.buffer.length) : rfwRead bufLen r = ([], r) := by
  have hpump : pump r = r := by
    unfold pump
    rw [if_pos hp, hs]
  unfold rfwRead
  rw [hpump, if_pos hp]

theorem rfwRead_nil_terminal (bufLen : Nat) (r : RFW) (hb : 1 ≤ bufLen)
    (hwf : r.position ≤ r.buffer.length) (h : (rfwRead bufLen r).1 = []) :
    (rfwRead bufLen r).2.state = none ∧
    (rfwRead bufLen r).2.position = (rfwRead bufLen r).2.buffer.length := by
  unfold rfwRead at h ⊢
  split at h
  · next hpos =>
    rw [if_pos hpos]
    rcases pump_cases r hwf with hn | hlt
    · exact ⟨hn, hpos⟩
    · exact absurd hpos (Nat.ne_of_lt hlt)
  · next hpos =>
    exfalso
    have hwf' := pump_wf r hwf
    have hlt : (pump r).position < (pump r).buffer.length := lt_of_le_of_ne hwf' hpos
    rcases List.take_eq_nil_iff.mp h with h0 | h0 <;>
      first
        | (rcases Nat.min_eq_zero_iff.mp h0 with h1 | h1 <;> omega)
        | (rw [List.drop_eq_nil_iff] at h0; omega)

theorem readAllSizes_of_terminal :
    ∀ (sizes : List Nat) (r : RFW), r.state = none → r.position = r.buffer.length →
      readAllSizes sizes r = [] := by
  intro sizes
  induction sizes with
  | nil => intro r _ _; rfl
  | cons n rest ih =>
    intro r hs hp
    simp only [readAllSizes, rfwRead_terminal n r hs hp]
    exact ih r hs hp

theorem readAllSizes_eq_content :
    ∀ (sizes : List Nat) (r : RFW), (∀ n ∈ sizes, 1 ≤ n) →
      r.position ≤ r.buffer.length → rfwMeasure r ≤ sizes.length →
      readAllSizes sizes r = rfwContent r := by
  intro sizes
  induction sizes with
  | nil =>
    intro r _ _ hm
    have := rfwContent_length_le r
    have hnil : rfwContent r = [] := by
      apply List.eq_nil_of_length_eq_zero
      simp only [List.length_nil, Nat.le_zero] at hm
      omega
    simp [readAllSizes, hnil]
  | cons n rest ih =>
    intro r hall hwf hm
    have hn : 1 ≤ n := hall n (List.mem_cons_self n rest)
    simp only [readAllSizes]
    rcases h : rfwRead n r with ⟨served, r'⟩
    by_cases hserved : served = []
    · subst hserved
      have hcontent : rfwContent r = [] := rfwRead_nil n r hn hwf (by rw [h])
      have hterm := rfwRead_nil_terminal n r hn hwf (by rw [h])
      rw [h] at hterm
      rw [readAllSizes_of_terminal rest r' hterm.1 hterm.2, hcontent]
      rfl
    · have hlt : rfwMeasure r' < rfwMeasure r := by
        have := rfwRead_measure_lt n r (by rw [h]; exact hserved)
        rwa [h] at this
      have hwf' : r'.position ≤ r'.buffer.length := by
        have := rfwRead_wf n r hwf
        rwa [h] at this
      have hrest : ∀ m ∈ rest, 1 ≤ m := fun m hmem => hall m (List.mem_cons_of_mem n hmem)
      rw [ih r' hrest hwf' (by simp only [List.length_cons] at hm; omega)]
      have := rfwRead_content n r
      rwa [h] at this

/-- C5: For every producer (initial writer output plus the stream of step
outputs) and every sequence of consumer buffer sizes (each at least one
byte, with enough pulls to reach end-of-data), the concatenation of all
bytes returned by successive reads is the same byte sequence — in
particular pulling in chunks of size 1 yields exactly the same total
output as pulling with one large consumer buffer. -/
theorem streaming_chunkSize_independent (initBytes : List Nat) (p : Producer)
    (sizes1 sizes2 : List Nat)
    (h1a : ∀ n ∈ sizes1, 1 ≤ n) (h1b : rfwMeasure (rfwInit initBytes p) ≤ sizes1.length)
    (h2a : ∀ n ∈ sizes2, 1 ≤ n) (h2b : rfwMeasure (rfwInit initBytes p) ≤ sizes2.length) :
    readAllSizes sizes1 (rfwInit initBytes p) = readAllSizes sizes2 (rfwInit initBytes p) := by
  rw [readAllSizes_eq_content sizes1 _ h1a (Nat.zero_le _) h1b,
    readAllSizes_eq_content sizes2 _ h2a (Nat.zero_le _) h2b]

/-- Witness for C5: a concrete producer drained with size-1 pulls and with
size-7 pulls yields the same bytes. -/
theorem streaming_chunkSize_independent_witness :
    readAllSizes (List.replicate 10 1) (rfwInit [1, 2] ⟨[[3], [], [4, 5]], .done [6]⟩) =
      readAllSizes (List.replicate 10 7) (rfwInit [1, 2] ⟨[[3], [], [4, 5]], .done [6]⟩) :=
  streaming_chunkSize_independent [1, 2] ⟨[[3], [], [4, 5]], .done [6]⟩
    (List.replicate 10 1) (List.replicate 10 7)
    (by decide) (by decide) (by decide) (by decide)

/-- C6: If the step function fails, the bytes it wrote plus the error's
textual message are served in-band as the stream's trailer and the stream
then ends — the fully drained output is the initial bytes, the successful
chunks, and then the failing step's bytes followed by the message; and once
the adapter is terminal (the step function returned `None`, or an error
occurred and the trailer was drained) every subsequent read returns zero
bytes. -/
theorem streaming_error_trailer_terminal :
    (∀ (initBytes : List Nat) (chunks : List (List Nat)) (bs msg : List Nat)
        (bufLen fuel : Nat), 1 ≤ bufLen →
        rfwMeasure (rfwInit initBytes ⟨chunks, .fail bs msg⟩) ≤ fuel →
        readAllFuel fuel bufLen (rfwInit initBytes ⟨chunks, .fail bs msg⟩) =
          initBytes ++ chunks.flatten ++ bs ++ msg) ∧
    (∀ (r : RFW) (bufLen : Nat), rfwTerminal r → rfwRead bufLen r = ([], r)) := by
  constructor
  · intro initBytes chunks bs msg bufLen fuel hb hm
    rw [readAllFuel_eq_content fuel bufLen _ hb (Nat.zero_le _) hm]
    simp [rfwContent, rfwInit, producerContent, stopBytes, List.append_assoc]
  · rintro r bufLen ⟨hstate, hpos⟩
    have hpump : pump r = r := by
      unfold pump
      rw [if_pos hpos, hstate]
    unfold rfwRead
    rw [hpump, if_pos hpos]

/-- Witness for C6: a concrete failing producer is drained to its trailer,
and a concrete terminal adapter reports zero bytes. -/
theorem streaming_error_trailer_terminal_witness :
    readAllFuel 64 3 (rfwInit [1] ⟨[[2]], .fail [9] [7, 8]⟩) = [1, 2, 9, 7, 8] ∧
    rfwRead 5 ⟨[1, 2], 2, none⟩ = ([], ⟨[1, 2], 2, none⟩) := by
  constructor
  · rw [streaming_error_trailer_terminal.1 [1] [[2]] [9] [7, 8] 3 64
      (by decide) (by decide)]
    decide
  · exact streaming_error_trailer_terminal.2 ⟨[1, 2], 2, none⟩ 5 ⟨rfl, rfl⟩

/-! ## Search federation (C4, C10) -/

theorem searchDocsLoop_filter (sq : String → Except String StoreQueryResult) (sparql : String) :
    ∀ (docs : List (Except String TantivyDoc)) (store trace : List String),
      searchDocsLoop sq sparql (docs.filter (fun d => !docSilentlySkipped d)) store trace =
        searchDocsLoop sq sparql docs store trace := by
  intro docs
  induction docs with
  | nil => intro store trace; rfl
  | cons d rest ih =>
    intro store trace
    rcases d with e | doc
    · have hkeep : (!docSilentlySkipped (Except.error e : Except String TantivyDoc)) = true := by
        simp [docSilentlySkipped]
      rw [List.filter_cons, hkeep]
      simp [searchDocsLoop]
    · rcases hiri : doc.iri with _ | v
      · have hskip : (!docSilentlySkipped (Except.ok doc)) = false := by
          simp [docSilentlySkipped, hiri]
        rw [List.filter_cons, hskip]
        simp only [Bool.false_eq_true, if_false]
        rw [ih]
        simp [searchDocsLoop, hiri]
      · cases v with
        | other =>
          have hskip : (!docSilentlySkipped (Except.ok doc)) = false := by
            simp [docSilentlySkipped, hiri]
          rw [List.filter_cons, hskip]
          simp only [Bool.false_eq_true, if_false]
          rw [ih]
          simp [searchDocsLoop, hiri]
        | str s =>
          have hkeep : (!docSilentlySkipped (Except.ok doc)) = true := by
            simp [docSilentlySkipped, hiri]
          rw [List.filter_cons, hkeep]
          simp only [if_true]
          simp only [searchDocsLoop, hiri]
          cases hsq : sq (hitQuery sparql s) with
          | error e => rfl
          | ok qr => cases qr <;> simp [ih]

/-- C4: For every GET /search request whose query parses and whose index
holds at least one document, the counting collector runs exactly once
regardless of the limit; and when `limit == 0` the handler returns 204
No Content with `X-Total-Count` set to that count and an empty body,
without running the top-docs retrieval or any graph-store lookup. -/
theorem search_count_and_probe (env : SearchEnv) (urlPairs : List (String × String))
    (accept : String) (params : SearchParsedUrl)
    (hp : parseSearchUrl urlPairs = .ok params)
    (hq : env.parseOk = true) (hd : 1 ≤ env.numDocs) :
    (searchHandleRequest env "GET" urlPairs accept).2.countRuns = 1 ∧
    (params.limit = 0 → ∀ count, env.countResult = .ok count →
      searchHandleRequest env "GET" urlPairs accept =
        (.ok ⟨204, some (toString count), [], none⟩, ⟨1, 0, []⟩)) := by
  have hne : ¬env.numDocs = 0 := by omega
  constructor
  · unfold searchHandleRequest
    rw [if_neg (by simp), hp]
    simp only [hq, Bool.true_eq_false, if_false, hne]
    split
    · rfl
    · split
      · rfl
      · split
        · rfl
        · split
          · rfl
          · split <;> rfl
  · intro hl count hc
    unfold searchHandleRequest
    rw [if_neg (by simp), hp]
    simp only [hq, Bool.true_eq_false, if_false, hne, hc, hl, if_true]

/-- Witness for C4: a one-document index queried with `limit=0` returns the
count-only 204 probe with no top-docs run and no retrieval queries. -/
theorem search_count_and_probe_witness :
    searchHandleRequest
        ⟨1, true, .ok 5, .ok [], fun _ => .ok .solutions, "CONSTRUCT"⟩ "GET"
        [("query", "hello"), ("limit", "0")] "" =
      (.ok ⟨204, some (toString 5), [], none⟩, ⟨1, 0, []⟩) :=
  (search_count_and_probe
    ⟨1, true, .ok 5, .ok [], fun _ => .ok .solutions, "CONSTRUCT"⟩
    [("query", "hello"), ("limit", "0")] "" ⟨0, 0, "hello"⟩
    (by decide) rfl (by decide)).2 rfl 5 rfl

/-- C10: During search federation, a top-ranked hit whose retrieved
document has no stored `iri` value, or whose value is not a string, is
silently skipped — removing all such hits changes neither the response nor
the execution trace (so no retrieval query runs for them, they produce no
error and contribute no triples) — while `X-Total-Count` still reports the
counting collector's full count on every successful response. -/
theorem search_skips_hits_without_iri (env : SearchEnv)
    (docs : List (Except String TantivyDoc)) (urlPairs : List (String × String))
    (accept : String) (h : env.topDocsResult = .ok docs) :
    searchHandleRequest env "GET" urlPairs accept =
      searchHandleRequest
        { env with topDocsResult := .ok (docs.filter (fun d => !docSilentlySkipped d)) }
        "GET" urlPairs accept ∧
    (∀ count r, env.countResult = .ok count →
      (searchHandleRequest env "GET" urlPairs accept).1 = .ok r →
      r.xTotalCount = some (toString count)) := by
  constructor
  · cases hparse : parseSearchUrl urlPairs with
    | error e => simp [searchHandleRequest, hparse]
    | ok params =>
      by_cases hpo : env.parseOk = false
      · simp [searchHandleRequest, hparse, hpo]
      · by_cases hnd : env.numDocs = 0
        · simp [searchHandleRequest, hparse, hpo, hnd]
        · cases hc : env.countResult with
          | error e => simp [searchHandleRequest, hparse, hpo, hnd, hc]
          | ok count =>
            by_cases hl : params.limit = 0
            · simp [searchHandleRequest, hparse, hpo, hnd, hc, hl]
            · simp only [searchHandleRequest, hparse, hpo, hnd, hc, hl, h,
                Bool.false_eq_true, if_false, ite_false, ne_eq, not_true_eq_false]
              rw [searchDocsLoop_filter env.storeQuery env.indexResultSparql docs]
  · intro count r hc hr
    cases hparse : parseSearchUrl urlPairs with
    | error e => rw [searchHandleRequest] at hr; simp [hparse] at hr
    | ok params =>
      by_cases hpo : env.parseOk = false
      · rw [searchHandleRequest] at hr; simp [hparse, hpo] at hr
      · by_cases hnd : env.numDocs = 0
        · rw [searchHandleRequest] at hr; simp [hparse, hpo, hnd] at hr
        · by_cases hl : params.limit = 0
          · rw [searchHandleRequest] at hr
            simp [hparse, hpo, hnd, hc, hl] at hr
            rw [← hr]
          · rw [searchHandleRequest] at hr
            cases htd : env.topDocsResult with
            | error e => simp [hparse, hpo, hnd, hc, hl, htd] at hr
            | ok docs2 =>
              rcases hloop : searchDocsLoop env.storeQuery env.indexResultSparql docs2 [] []
                with ⟨res, qs⟩
              cases res with
              | error e =>
                simp [hparse, hpo, hnd, hc, hl, htd, hloop] at hr
              | ok store =>
                cases hneg : graphContentNegotiation accept with
                | error e => simp [hparse, hpo, hnd, hc, hl, htd, hloop, hneg] at hr
                | ok fmt =>
                  simp [hparse, hpo, hnd, hc, hl, htd, hloop, hneg] at hr
                  rw [← hr]

/-- Witness for C10: dropping the two hits with unusable `iri` values (one
missing, one non-string) leaves the response unchanged. -/
theorem search_skips_hits_without_iri_witness :
    searchHandleRequest
        ⟨2, true, .ok 7,
         .ok [Except.ok ⟨none⟩, .ok ⟨some (.str "<i>")⟩, .ok ⟨some .other⟩],
         fun _ => .ok (.graph ["t"]), "CONSTRUCT"⟩ "GET" [("query", "x")] "" =
      searchHandleRequest
        ⟨2, true, .ok 7,
         .ok (([Except.ok ⟨none⟩, .ok ⟨some (.str "<i>")⟩, .ok ⟨some .other⟩] :
            List (Except String TantivyDoc)).filter (fun d => !docSilentlySkipped d)),
         fun _ => .ok (.graph ["t"]), "CONSTRUCT"⟩ "GET" [("query", "x")] "" :=
  (search_skips_hits_without_iri
    ⟨2, true, .ok 7,
     .ok [Except.ok ⟨none⟩, .ok ⟨some (.str "<i>")⟩, .ok ⟨some .other⟩],
     fun _ => .ok (.graph ["t"]), "CONSTRUCT"⟩
    [Except.ok ⟨none⟩, .ok ⟨some (.str "<i>")⟩, .ok ⟨some .other⟩]
    [("query", "x")] "" rfl).1

/-! ## Content negotiation (C2) -/

theorem find_earliest {α : Type} (p : α → Bool) :
    ∀ (l : List α) (c : α), l.find? p = some c →
      ∃ l1 l2, l = l1 ++ c :: l2 ∧ p c = true ∧ ∀ x ∈ l1, p x = false := by
  intro l
  induction l with
  | nil => intro c h; cases h
  | cons a t ih =>
    intro c h
    by_cases hp : p a
    · rw [List.find?_cons_of_pos _ hp] at h
      cases h
      exact ⟨[], t, rfl, hp, by simp⟩
    · rw [List.find?_cons_of_neg _ (by simpa using hp)] at h
      obtain ⟨l1, l2, heq, hc, hall⟩ := ih c h
      refine ⟨a :: l1, l2, by rw [heq, List.cons_append], hc, ?_⟩
      intro x hx
      rcases List.mem_cons.mp hx with rfl | hx
      · simpa using hp
      · exact hall x hx

theorem negotiate_foldl_char (supported : List (String × String)) :
    ∀ (entries : List MediaRange) (r : Option (String × String)) (s : ℚ),
      (entries.foldl (negotiateStep supported) (r, s) = (r, s) ∧
        ∀ e ∈ entries, entryMatchOf supported e ≠ none → e.score ≤ s) ∨
      (∃ l1 x l2, entries = l1 ++ x :: l2 ∧
        entryMatchOf supported x ≠ none ∧
        (entries.foldl (negotiateStep supported) (r, s)).1 = entryMatchOf supported x ∧
        (entries.foldl (negotiateStep supported) (r, s)).2 = x.score ∧
        s < x.score ∧
        (∀ y ∈ l1, entryMatchOf supported y ≠ none → y.score < x.score) ∧
        (∀ y ∈ l2, entryMatchOf supported y ≠ none → y.score ≤ x.score)) := by
  intro entries
  induction entries with
  | nil => intro r s; exact Or.inl ⟨rfl, by simp⟩
  | cons e es ih =>
    intro r s
    rw [List.foldl_cons]
    by_cases hle : e.score ≤ s
    · have hstep : negotiateStep supported (r, s) e = (r, s) := by
        unfold negotiateStep
        rw [if_pos hle]
      rw [hstep]
      rcases ih r s with ⟨heq, hall⟩ | ⟨l1, x, l2, heq2, hmx, h1, h2, hs, hbef, haft⟩
      · left
        refine ⟨heq, ?_⟩
        intro y hy hmy
        rcases List.mem_cons.mp hy with rfl | hy
        · exact hle
        · exact hall y hy hmy
      · right
        refine ⟨e :: l1, x, l2, by rw [heq2, List.cons_append], hmx, h1, h2, hs, ?_, haft⟩
        intro y hy hmy
        rcases List.mem_cons.mp hy with rfl | hy
        · exact lt_of_le_of_lt hle hs
        · exact hbef y hy hmy
    · push_neg at hle
      cases hm : entryMatchOf supported e with
      | none =>
        have hstep : negotiateStep supported (r, s) e = (r, s) := by
          unfold negotiateStep
          rw [if_neg (not_le.mpr hle)]
          unfold entryMatchOf at hm
          rw [hm]
        rw [hstep]
        rcases ih r s with ⟨heq, hall⟩ | ⟨l1, x, l2, heq2, hmx, h1, h2, hs, hbef, haft⟩
        · left
          refine ⟨heq, ?_⟩
          intro y hy hmy
          rcases List.mem_cons.mp hy with rfl | hy
          · exact absurd hm hmy
          · exact hall y hy hmy
        · right
          refine ⟨e :: l1, x, l2, by rw [heq2, List.cons_append], hmx, h1, h2, hs, ?_, haft⟩
          intro y hy hmy
          rcases List.mem_cons.mp hy with rfl | hy
          · exact absurd hm hmy
          · exact hbef y hy hmy
      | some c =>
        have hstep : negotiateStep supported (r, s) e = (some c, e.score) := by
          unfold negotiateStep
          rw [if_neg (not_le.mpr hle)]
          unfold entryMatchOf at hm
          rw [hm]
        rw [hstep]
        rcases ih (some c) e.score with ⟨heq, hall⟩ | ⟨l1, x, l2, heq2, hmx, h1, h2, hs, hbef, haft⟩
        · right
          refine ⟨[], e, es, rfl, by rw [hm]; exact fun hh => Option.noConfusion hh,
            by rw [heq, hm], by rw [heq], hle, by simp, hall⟩
        · right
          refine ⟨e :: l1, x, l2, by rw [heq2, List.cons_append], hmx, h1, h2,
            lt_trans hle hs, ?_, haft⟩
          intro y hy hmy
          rcases List.mem_cons.mp hy with rfl | hy
          · exact hs
          · exact hbef y hy hmy

/-- C2: An Accept entry matches a supported candidate iff its type equals
the candidate's type or is `*` and its subtype equals the candidate's
subtype or is `*`; within one entry the earliest (highest-priority)
matching candidate is chosen; across entries the selected entry has the
maximal q-score among matching entries, every earlier matching entry
having a strictly smaller score (ties keep the earlier result, a later
entry replaces the running result only when its score strictly exceeds the
running best); and `Accept: application/json;q=0.5, text/csv;q=0.9`
against the supported list [json, xml, csv, tsv] selects csv. -/
theorem contentNegotiation_contract :
    (∀ pb ps cb cs : String, entryMatches pb ps cb cs = true ↔
        ((pb = cb ∨ pb = "*") ∧ (ps = cs ∨ ps = "*"))) ∧
    (∀ (supported : List (String × String)) (e : MediaRange) (c : String × String),
        entryMatchOf supported e = some c →
        ∃ pre post, supported = pre ++ c :: post ∧
          entryMatches e.base e.sub c.1 c.2 = true ∧
          ∀ x ∈ pre, entryMatches e.base e.sub x.1 x.2 = false) ∧
    (∀ (supported : List (String × String)) (entries : List MediaRange)
        (c : String × String),
        (negotiateEntries supported entries).1 = some c →
        ∃ l1 x l2, entries = l1 ++ x :: l2 ∧
          entryMatchOf supported x = some c ∧ 0 < x.score ∧
          (∀ y ∈ l1, entryMatchOf supported y ≠ none → y.score < x.score) ∧
          (∀ y ∈ entries, entryMatchOf supported y ≠ none → y.score ≤ x.score)) ∧
    queryResultsContentNegotiation "application/json;q=0.5, text/csv;q=0.9" = .ok .csv := by
  refine ⟨?_, ?_, ?_, by decide⟩
  · intro pb ps cb cs
    simp [entryMatches, Bool.and_eq_true, Bool.or_eq_true, beq_iff_eq]
  · intro supported e c h
    unfold entryMatchOf at h
    exact find_earliest _ supported c h
  · intro supported entries c h
    rcases negotiate_foldl_char supported entries none 0 with ⟨heq, _⟩ |
      ⟨l1, x, l2, heq2, hmx, h1, h2, hs, hbef, haft⟩
    · rw [negotiateEntries, heq] at h
      cases h
    · rw [negotiateEntries] at h
      rw [h1] at h
      refine ⟨l1, x, l2, heq2, h, hs, hbef, ?_⟩
      intro y hy hmy
      rw [heq2] at hy
      rcases List.mem_append.mp hy with hy | hy
      · exact le_of_lt (hbef y hy hmy)
      · rcases List.mem_cons.mp hy with rfl | hy
        · exact le_refl _
        · exact haft y hy hmy

/-- Witness for C2: the match test, the across-entry characterization and
the negotiation example evaluated at concrete inputs. -/
theorem contentNegotiation_contract_witness :
    entryMatches "text" "csv" "text" "csv" = true ∧
    (∃ l1 x l2, ([⟨"text", "csv", 1⟩] : List MediaRange) = l1 ++ x :: l2 ∧
      entryMatchOf [("text", "csv")] x = some ("text", "csv") ∧ 0 < x.score ∧
      (∀ y ∈ l1, entryMatchOf [("text", "csv")] y ≠ none → y.score < x.score) ∧
      (∀ y ∈ ([⟨"text", "csv", 1⟩] : List MediaRange),
        entryMatchOf [("text", "csv")] y ≠ none → y.score ≤ x.score)) ∧
    queryResultsContentNegotiation "application/json;q=0.5, text/csv;q=0.9" = .ok .csv :=
  ⟨(contentNegotiation_contract.1 "text" "csv" "text" "csv").mpr ⟨Or.inl rfl, Or.inl rfl⟩,
   contentNegotiation_contract.2.2.1 [("text", "csv")] [⟨"text", "csv", 1⟩]
     ("text", "csv") (by decide),
   contentNegotiation_contract.2.2.2⟩

end KosKitServer
